import Mathlib

/-!
Verification of the summary-table refresh engine of crowdbiz_graph.

Shallow embedding of:
- src/refresh_summary_tables.py (refresh_network_status, refresh_organization_summary)
- src/create_job_title_department_mapping.py (classify_job_title, DEPARTMENT_MAPPING)
- src/add_standardized_departments.py (categorize_role, create_department_mapping)
- src/scripts/create_summary_tables_sql.py (the COUNT(DISTINCT person_id) aggregate)

UUID primary keys are modelled as Nat; timestamps are carried as strings exactly
as the Python code carries them (the refresh sends the literal string "now()").
-/

/-- Row of the person table as consumed by the refresh engine
(src/scripts/create_summary_tables_sql.py schema, spec section 6). -/
structure Person where
  id : Nat
  full_name : String
  first_name : String
  last_name : String
  linkedin_url : String
  created_at : String
deriving Repr, DecidableEq

/-- Row of the organization table (spec section 6). -/
structure Organization where
  id : Nat
  name : String
  org_type : String
  sport : String
  industry : String
  parent_org_id : Option Nat
  is_active : Bool
deriving Repr, DecidableEq

/-- Row of the role table (spec section 6). -/
structure Role where
  id : Nat
  person_id : Nat
  org_id : Nat
  job_title : Option String
  dept : Option String
  standardized_department : Option String
  start_date : Option String
  is_current : Bool
  is_executive : Bool
deriving Repr, DecidableEq

/-- The Source Store: the three normalized source tables, in fetch order. -/
structure SourceStore where
  persons : List Person
  organizations : List Organization
  roles : List Role
deriving Repr, DecidableEq

/-- PostgREST embedded-resource lookup person:person_id(*) used by the
roles query in refresh_network_status: resolves a person_id to its row. -/
def findPerson (ps : List Person) (pid : Nat) : Option Person :=
  ps.find? (fun p => p.id == pid)

/-- PostgREST embedded-resource lookup organization(*): resolves an org_id. -/
def findOrganization (os : List Organization) (oid : Nat) : Option Organization :=
  os.find? (fun o => o.id == oid)

/-- Boolean prefix test on character lists (helper for the Python substring
operator used by the classifiers). -/
def isPrefixChars : List Char → List Char → Bool
  | [], _ => true
  | _ :: _, [] => false
  | c :: cs, d :: ds => c == d && isPrefixChars cs ds

/-- Boolean substring test on character lists: first argument occurs
contiguously inside the second (semantics of Python "needle in hay"). -/
def isSubstring : List Char → List Char → Bool
  | needle, [] => needle.isEmpty
  | needle, c :: t => isPrefixChars needle (c :: t) || isSubstring needle t

/-- Python string containment test "needle in hay". -/
def pyIn (needle hay : String) : Bool :=
  isSubstring needle.data hay.data

/-- Python str.lower restricted to the ASCII titles handled here. -/
def pyLower (s : String) : String :=
  ⟨s.data.map Char.toLower⟩

/-- The ordered keyword table DEPARTMENT_MAPPING of
src/create_job_title_department_mapping.py, in source order (Python dicts
iterate in insertion order, so this order is the tie-break order). -/
def DEPARTMENT_MAPPING : List (String × List String) :=
  [("Sales & Partnerships",
    ["sales", "partnership", "corporate partnership", "sponsor", "business development",
     "account", "client", "revenue", "commercial", "corporate sales", "premium sales",
     "season ticket", "membership", "corporate services", "vip", "suite", "hospitality"]),
   ("Marketing & Communications",
    ["marketing", "communications", "content", "social media", "brand", "creative",
     "graphic design", "public relations", "pr", "media relations", "digital",
     "advertising", "promotion", "community relations", "fan engagement", "publicity"]),
   ("Finance & Administration",
    ["finance", "accounting", "controller", "cfo", "treasurer", "budget", "financial",
     "hr", "human resources", "legal", "compliance", "administration", "admin",
     "operations manager", "business operations", "executive assistant", "office manager"]),
   ("Stadium Operations & Facilities",
    ["stadium", "facilities", "maintenance", "security", "grounds", "field",
     "building", "operations", "event operations", "game day", "facility",
     "groundskeeper", "custodial", "engineering"]),
   ("Technology & Analytics",
    ["technology", "it", "data", "analytics", "digital", "software", "systems",
     "database", "tech", "information", "analyst", "developer", "programmer"]),
   ("Fan Experience & Events",
    ["fan experience", "events", "entertainment", "guest services", "customer service",
     "fan services", "game presentation", "promotions", "activation", "experience",
     "community", "youth", "education", "outreach"]),
   ("Ticketing & Operations",
    ["ticketing", "box office", "ticket", "seating", "concessions", "merchandise",
     "retail", "food service", "vendor", "procurement", "purchasing"]),
   ("Broadcasting & Media",
    ["broadcasting", "media", "production", "video", "audio", "broadcast",
     "television", "radio", "streaming", "content production", "journalism",
     "reporter", "announcer", "producer"])]

/-- Leadership tokens of the special-case check in classify_job_title. -/
def execWords : List String :=
  ["ceo", "president", "owner", "chairman", "chief"]

/-- classify_job_title of src/create_job_title_department_mapping.py.
A None or empty title is falsy in Python, hence the early Other return;
otherwise the lowered title is scanned against the ordered keyword table,
first matching category wins, then the leadership-token check, then Other. -/
def classify_job_title (job_title : Option String) : String :=
  match job_title with
  | none => "Other"
  | some t =>
    if t = "" then "Other"
    else
      let lower := pyLower t
      match DEPARTMENT_MAPPING.find? (fun dk => dk.2.any (fun kw => pyIn kw lower)) with
      | some dk => dk.1
      | none =>
        if execWords.any (fun w => pyIn w lower) then "Executive Leadership" else "Other"

/-- The keyword table built by create_department_mapping in
src/add_standardized_departments.py, in source order. -/
def create_department_mapping : List (String × List String) :=
  [("Sales & Partnerships",
    ["sales", "partnership", "sponsor", "corporate", "revenue", "account executive",
     "business development", "commercial", "membership", "season ticket", "premium sales",
     "corporate partnership", "sponsorship", "account manager", "client acquisition",
     "premium partnerships", "partnership activation", "partnership sales",
     "corporate partnerships", "ticket sales & service", "sales and service",
     "ticket sales", "client relations & retention", "corporate sales & business development",
     "client services", "premium partnerships", "partnership activation", "partnership sales"]),
   ("Ticketing & Operations",
    ["ticket", "customer service", "box office", "guest services", "hospitality",
     "customer experience", "membership services", "season ticket service",
     "ticket sales & service", "ticket sales & services", "ticket sales & operations",
     "ticket sales, service & operations", "ticket sales", "guest services & stadium operations",
     "ticket operations", "ticket sales, services, and operations"]),
   ("Marketing & Communications",
    ["marketing", "communication", "brand", "content", "social media", "public relations",
     "pr", "digital", "creative", "advertising", "media relations", "community relations",
     "graphic designer", "producer", "social media coordinator", "videographer", "photographer",
     "marketing", "marketing & media", "communications", "content", "content & digital",
     "marketing & fan engagement", "digital & social media", "public relations & community",
     "marketing, intelligence & broadcasting", "marketing & community impact", "media & content",
     "marketing & creative", "digital media", "public relations", "digital media and content production",
     "marketing and brand management"]),
   ("Fan Experience & Events",
    ["fan engagement", "fan experience", "event", "game day", "entertainment",
     "community", "outreach", "promotions", "activation", "fan services", "game presentation",
     "marketing & fan engagement", "community relations", "game presentation & live production",
     "events & game operations", "event management & hospitality", "community development",
     "community impact", "community & youth programs", "marketing & community impact"]),
   ("Stadium Operations & Facilities",
    ["operations", "facility", "maintenance", "security", "logistics", "stadium",
     "arena", "venue", "game operations", "facilities", "equipment", "grounds",
     "building", "facilities operations",
     "stadium operations", "facility operations", "facilities operations", "operations",
     "guest services & stadium operations", "maintenance & grounds", "grounds",
     "venue operations", "events & game operations"]),
   ("Finance & Administration",
    ["finance", "accounting", "controller", "financial", "admin", "hr", "human resources",
     "payroll", "budget", "analyst", "coordinator", "assistant", "accountant", "treasurer",
     "cfo", "chief financial", "people", "culture", "inclusion", "legal", "counsel", "attorney",
     "finance", "human resources", "legal", "executive", "people, culture & inclusion",
     "executive office", "people & culture", "finance & accounting", "finance and accounting",
     "people, culture, & inclusion", "human resources/business operations", "strategy"]),
   ("Technology & Analytics",
    ["technology", "it", "data", "analytics", "digital", "systems", "tech",
     "information technology", "data analyst", "software", "football analytics",
     "application developer", "engineer", "developer", "audio visual", "broadcast systems",
     "information technology", "technology", "football analytics", "business analytics and data strategy",
     "business & football operations"]),
   ("Broadcasting & Media",
    ["broadcast", "media", "radio", "television", "tv", "production", "commentary",
     "announcer", "media relations", "digital media", "audio", "video", "media asset",
     "play-by-play", "radio network",
     "ravens media", "media", "broadcasting", "media & content", "marketing, intelligence & broadcasting"])]

/-- categorize_role of src/add_standardized_departments.py: keyword match
against the lowered job title or the lowered raw department, first matching
category wins, otherwise Other. Python (x or "") maps None to the empty
string before lowering. -/
def categorize_role (job_title existing_dept : Option String)
    (department_mapping : List (String × List String)) : String :=
  let jtl := pyLower (job_title.getD "")
  let edl := pyLower (existing_dept.getD "")
  match department_mapping.find? (fun dk => dk.2.any (fun kw => pyIn kw jtl || pyIn kw edl)) with
  | some dk => dk.1
  | none => "Other"

/-- The categories classify_job_title can return: the mapped categories plus
the leadership special case and the Other fallback. -/
def allCategories : List String :=
  DEPARTMENT_MAPPING.map Prod.fst ++ ["Executive Leadership", "Other"]

/-- One row of the bulk roles query of refresh_network_status: the selected
role columns together with the embedded person and organization resources
(None when the referenced record is missing). -/
structure FetchedRole where
  job_title : Option String
  dept : Option String
  standardized_department : Option String
  start_date : Option String
  is_executive : Bool
  person : Option Person
  organization : Option Organization
deriving Repr, DecidableEq

/-- Builds the joined row the roles query returns for one role record. -/
def mkFetched (db : SourceStore) (r : Role) : FetchedRole :=
  { job_title := r.job_title
    dept := r.dept
    standardized_department := r.standardized_department
    start_date := r.start_date
    is_executive := r.is_executive
    person := findPerson db.persons r.person_id
    organization := findOrganization db.organizations r.org_id }

/-- The roles query of refresh_network_status: all roles with
is_current = true, joined with their person and organization, in table order. -/
def fetchCurrentRoles (db : SourceStore) : List FetchedRole :=
  (db.roles.filter (fun r => r.is_current)).map (mkFetched db)

/-- Appends a role to the group of its person id inside the person_roles
dict, creating the group at the end when the key is new (Python dict
insertion-order semantics). -/
def insertGrouped : List (Nat × List FetchedRole) → Nat → FetchedRole →
    List (Nat × List FetchedRole)
  | [], pid, r => [(pid, [r])]
  | (k, rs) :: rest, pid, r =>
    if k = pid then (k, rs ++ [r]) :: rest
    else (k, rs) :: insertGrouped rest pid r

/-- The grouping loop of refresh_network_status: roles whose person is
missing are skipped, the rest are grouped by person id. -/
def groupGo (acc : List (Nat × List FetchedRole)) :
    List FetchedRole → List (Nat × List FetchedRole)
  | [] => acc
  | fr :: rest =>
    match fr.person with
    | none => groupGo acc rest
    | some p => groupGo (insertGrouped acc p.id fr) rest

/-- person_roles of refresh_network_status: current roles grouped by person. -/
def groupByPerson (l : List FetchedRole) : List (Nat × List FetchedRole) :=
  groupGo [] l

/-- total_roles_counts of refresh_network_status: a Counter over the
person_id column of the whole role table, queried at a given person id
(Counter.get with default 0 is the number of occurrences). -/
def totalRolesCount (db : SourceStore) (pid : Nat) : Nat :=
  (db.roles.map (fun r => r.person_id)).count pid

/-- One row of the network_status serving table, with the fields the
refresh inserts. The last_updated field holds the literal string the code
sends. -/
structure NetworkStatusRecord where
  person_id : Nat
  full_name : String
  first_name : String
  last_name : String
  linkedin_url : String
  current_job_title : Option String
  current_department : Option String
  current_standardized_department : Option String
  current_organization : String
  current_org_type : String
  current_sport : String
  current_industry : String
  is_executive : Bool
  role_start_date : Option String
  current_roles_count : Nat
  total_roles_count : Nat
  created_at : String
  last_updated : String
deriving Repr, DecidableEq

/-- The per-person record construction of refresh_network_status: the first
role of the group is the primary role; when its person or organization is
missing the person is skipped (the continue on incomplete data). -/
def buildRecord (db : SourceStore) (kv : Nat × List FetchedRole) :
    Option NetworkStatusRecord :=
  match kv.2 with
  | [] => none
  | primary :: _ =>
    match primary.person, primary.organization with
    | some person, some org =>
      some { person_id := person.id
             full_name := person.full_name
             first_name := person.first_name
             last_name := person.last_name
             linkedin_url := person.linkedin_url
             current_job_title := primary.job_title
             current_department := primary.dept
             current_standardized_department := primary.standardized_department
             current_organization := org.name
             current_org_type := org.org_type
             current_sport := org.sport
             current_industry := org.industry
             is_executive := primary.is_executive
             role_start_date := primary.start_date
             current_roles_count := kv.2.length
             total_roles_count := totalRolesCount db kv.1
             created_at := person.created_at
             last_updated := "now()" }
    | _, _ => none

/-- network_status_records of refresh_network_status: the in-memory record
list the refresh computes from the source snapshot. -/
def computeNetworkStatus (db : SourceStore) : List NetworkStatusRecord :=
  (groupByPerson (fetchCurrentRoles db)).filterMap (buildRecord db)

/-- Association-list counter standing for a Python defaultdict(int):
increment of one key. -/
def bump : List (Nat × Nat) → Nat → List (Nat × Nat)
  | [], k => [(k, 1)]
  | (k0, n) :: rest, k =>
    if k0 = k then (k0, n + 1) :: rest
    else (k0, n) :: bump rest k

/-- defaultdict(int) read: 0 when the key is absent. -/
def getCount : List (Nat × Nat) → Nat → Nat
  | [], _ => 0
  | (k0, n) :: rest, k => if k0 = k then n else getCount rest k

/-- The three per-organization counters of refresh_organization_summary. -/
structure OrgCounters where
  cur : List (Nat × Nat)
  tot : List (Nat × Nat)
  exe : List (Nat × Nat)
deriving Repr, DecidableEq

/-- One iteration of the counting loop of refresh_organization_summary:
every role row bumps total_employees for its org; a current role also bumps
current_employees, and additionally executive_count when executive. -/
def tallyStep (cs : OrgCounters) (r : Role) : OrgCounters :=
  let cs := { cs with tot := bump cs.tot r.org_id }
  if r.is_current then
    let cs := { cs with cur := bump cs.cur r.org_id }
    if r.is_executive then { cs with exe := bump cs.exe r.org_id } else cs
  else cs

/-- The counting loop of refresh_organization_summary over the role rows. -/
def tallyGo (cs : OrgCounters) : List Role → OrgCounters
  | [] => cs
  | r :: rest => tallyGo (tallyStep cs r) rest

/-- All three counters computed from the fetched role rows. -/
def tallyRoles (roles : List Role) : OrgCounters :=
  tallyGo ⟨[], [], []⟩ roles

/-- One insertion into the org_map dict comprehension: an existing key keeps
its position but takes the newer row; a new key is appended. -/
def orgDictStep (acc : List Organization) (o : Organization) : List Organization :=
  if acc.any (fun x => x.id == o.id) then
    acc.map (fun x => if x.id == o.id then o else x)
  else acc ++ [o]

/-- The org_map dict built over the organization table, in iteration order. -/
def orgDictGo (acc : List Organization) : List Organization → List Organization
  | [] => acc
  | o :: rest => orgDictGo (orgDictStep acc o) rest

/-- org_map of refresh_organization_summary as its value iteration order. -/
def orgDict (orgs : List Organization) : List Organization :=
  orgDictGo [] orgs

/-- parent_org_names dict lookup: the name of the last organization row
carrying the parent id, None when the parent reference is null or dangling. -/
def parentName (orgs : List Organization) (pid : Option Nat) : Option String :=
  match pid with
  | none => none
  | some i => ((orgs.filter (fun o => o.id == i)).getLast?).map (fun o => o.name)

/-- One row of the organization_summary serving table with the fields the
refresh inserts. -/
structure OrganizationSummaryRecord where
  org_id : Nat
  name : String
  org_type : String
  sport : String
  industry : String
  is_active : Bool
  parent_org_id : Option Nat
  parent_org_name : Option String
  current_employees : Nat
  total_employees : Nat
  executive_count : Nat
  last_updated : String
deriving Repr, DecidableEq

/-- summary_records of refresh_organization_summary: one record per org_map
entry, counts read from the defaultdict counters. -/
def computeOrgSummary (db : SourceStore) : List OrganizationSummaryRecord :=
  let cs := tallyRoles db.roles
  (orgDict db.organizations).map (fun o =>
    { org_id := o.id
      name := o.name
      org_type := o.org_type
      sport := o.sport
      industry := o.industry
      is_active := o.is_active
      parent_org_id := o.parent_org_id
      parent_org_name := parentName db.organizations o.parent_org_id
      current_employees := getCount cs.cur o.id
      total_employees := getCount cs.tot o.id
      executive_count := getCount cs.exe o.id
      last_updated := "now()" })

/-- The full database state: source tables plus the two serving tables. -/
structure DBState where
  source : SourceStore
  network_status : List NetworkStatusRecord
  organization_summary : List OrganizationSummaryRecord
deriving Repr, DecidableEq

/-- refresh_network_status of src/refresh_summary_tables.py: clears the
serving table, returns early (with success) when the current-roles query is
empty, otherwise replaces the table with the computed records. -/
def refresh_network_status (s : DBState) : DBState × Bool :=
  let cleared := { s with network_status := [] }
  if fetchCurrentRoles s.source = [] then (cleared, true)
  else ({ cleared with network_status := computeNetworkStatus s.source }, true)

/-- refresh_organization_summary of src/refresh_summary_tables.py: clears
the serving table, returns early (with success) when the organization table
is empty, otherwise replaces the table with the computed records. -/
def refresh_organization_summary (s : DBState) : DBState × Bool :=
  let cleared := { s with organization_summary := [] }
  if s.source.organizations = [] then (cleared, true)
  else ({ cleared with organization_summary := computeOrgSummary s.source }, true)

/-- main of src/refresh_summary_tables.py: both refreshes in sequence, with
their success flags. -/
def refreshAll (s : DBState) : DBState × Bool × Bool :=
  let ns := refresh_network_status s
  let os := refresh_organization_summary ns.1
  (os.1, ns.2, os.2)

/-- The batched insert loop of the Summary Writer (lines 102 to 105 and 182
to 185 of src/refresh_summary_tables.py) together with the surrounding
function-level try/except: an insert that raises aborts the loop and the
function returns False; otherwise the loop proceeds. Returns the batches
whose insert was attempted and the success flag. The fails argument says
which batches the backing store rejects. -/
def insertLoop {α : Type} (fails : List α → Bool) :
    List (List α) → List (List α) × Bool
  | [] => ([], true)
  | b :: rest =>
    if fails b then ([b], false)
    else
      let res := insertLoop fails rest
      (b :: res.1, res.2)

/-- Fuel-indexed batch slicing loop. -/
def chunksGo {α : Type} (bs : Nat) : Nat → List α → List (List α)
  | _, [] => []
  | 0, _ :: _ => []
  | fuel + 1, a :: t => ((a :: t).take bs) :: chunksGo bs fuel ((a :: t).drop bs)

/-- The batch slicing of the Summary Writer: the slices
records[i : i + batch_size] for i in range(0, len(records), batch_size). -/
def chunksOf {α : Type} (bs : Nat) (l : List α) : List (List α) :=
  chunksGo bs l.length l

/-- A concrete failure pattern for the writer model: the store rejects
exactly the batch [2]. -/
def failsOn2 : List Nat → Bool := fun b => b == [2]

/-- Distinct-person employee count, as the SQL variant populates it:
COUNT(DISTINCT person_id) over the roles of the organization
(populate_organization_summary in src/scripts/create_summary_tables_sql.py).
This is also the spec reading of total_employees. -/
def sql_total_employees (roles : List Role) (oid : Nat) : Nat :=
  (((roles.filter (fun r => r.org_id == oid)).map (fun r => r.person_id)).dedup).length

/-- Dict lookup in the person_roles grouping: the group stored under a key. -/
def lookupG : List (Nat × List FetchedRole) → Nat → Option (List FetchedRole)
  | [], _ => none
  | (k0, rs) :: rest, k => if k0 = k then some rs else lookupG rest k

/-- The grouping key of a fetched role: its embedded person id, if any. -/
def keyOfF (fr : FetchedRole) : Option Nat :=
  fr.person.map (fun p => p.id)

/-- The fetched roles belonging to one person id, in fetch order. -/
def groupFilter (l : List FetchedRole) (k : Nat) : List FetchedRole :=
  l.filter (fun fr => keyOfF fr == some k)

/-- Combines a stored group with roles appended later (analysis helper for
the grouping loop). -/
def combineG : Option (List FetchedRole) → List FetchedRole → Option (List FetchedRole)
  | some rs, g => some (rs ++ g)
  | none, g => if g = [] then none else some g

/-- A person used by the concrete scenarios. -/
def personP : Person := ⟨1, "Pat Doe", "Pat", "Doe", "li", "t0"⟩

/-- An organization used by the concrete scenarios. -/
def orgOne : Organization := ⟨1, "Org One", "Team", "Football", "Sports", none, true⟩

/-- First historical role of personP at orgOne. -/
def roleH1 : Role := ⟨1, 1, 1, some "Coach", none, none, some "2020-01-01", false, false⟩

/-- Second historical role of personP at orgOne. -/
def roleH2 : Role := ⟨2, 1, 1, some "Scout", none, none, some "2021-01-01", false, false⟩

/-- Source snapshot where one person holds two historical role rows at the
same organization. -/
def db1 : SourceStore := ⟨[personP], [orgOne], [roleH1, roleH2]⟩

/-- Second organization for the missing-organization scenario. -/
def orgTwo : Organization := ⟨2, "Org Two", "League", "Football", "Sports", none, true⟩

/-- Current role of personP whose organization record (id 99) is missing. -/
def roleMissingOrg : Role := ⟨1, 1, 99, some "VP Marketing", none, none, some "2024-01-01", true, false⟩

/-- Current role of personP at the intact orgTwo. -/
def roleIntactOrg : Role := ⟨2, 1, 2, some "Board Member", none, none, some "2023-01-01", true, true⟩

/-- Source snapshot where the first fetched current role of personP points at
a deleted organization and the second current role is intact. -/
def db3 : SourceStore := ⟨[personP], [orgTwo], [roleMissingOrg, roleIntactOrg]⟩

/-- Person of the generic witness snapshot. -/
def personW : Person := ⟨7, "Wit Ness", "Wit", "Ness", "liW", "t1"⟩

/-- Organization of the generic witness snapshot. -/
def orgW : Organization := ⟨3, "Org W", "Brand", "", "Apparel", none, true⟩

/-- Current role of personW at orgW. -/
def roleWcur : Role :=
  ⟨10, 7, 3, some "Manager", some "Ops", some "Stadium Operations & Facilities",
   some "2022-05-01", true, false⟩

/-- Historical role of personW at orgW. -/
def roleWold : Role := ⟨11, 7, 3, some "Intern", none, none, some "2020-01-01", false, false⟩

/-- Witness source snapshot: one person with one current and one historical role. -/
def dbW : SourceStore := ⟨[personW], [orgW], [roleWcur, roleWold]⟩

/-- Witness database state around dbW. -/
def sW : DBState := ⟨dbW, [], []⟩

/-- The network_status record the refresh computes for personW on dbW. -/
def recW : NetworkStatusRecord :=
  ⟨7, "Wit Ness", "Wit", "Ness", "liW", some "Manager", some "Ops",
   some "Stadium Operations & Facilities", "Org W", "Brand", "", "Apparel",
   false, some "2022-05-01", 1, 2, "t1", "now()"⟩

/-- Current non-executive role for the organization-summary witness. -/
def roleCur6 : Role := ⟨20, 1, 1, some "Coach", none, none, none, true, false⟩

/-- Witness state for the organization rollup. -/
def s6 : DBState := ⟨⟨[personP], [orgOne], [roleCur6]⟩, [], []⟩

/-- The organization_summary record computed for orgOne on s6. -/
def rec6 : OrganizationSummaryRecord :=
  ⟨1, "Org One", "Team", "Football", "Sports", true, none, none, 1, 1, 0, "now()"⟩

/-- An organization with no role rows at all. -/
def org5 : Organization := ⟨5, "Empty Org", "Agency", "", "Talent", none, true⟩

/-- State whose source has an organization with zero role rows. -/
def s8 : DBState := ⟨⟨[], [org5], []⟩, [], []⟩

/-- State with a non-empty serving table and no current role in the source. -/
def s10 : DBState := ⟨⟨[personW], [orgW], [roleWold]⟩, [recW], []⟩

theorem rns_fst_source (s : DBState) : (refresh_network_status s).1.source = s.source := by
  unfold refresh_network_status
  split <;> rfl

theorem rns_fst_ns (s : DBState) :
    (refresh_network_status s).1.network_status =
      if fetchCurrentRoles s.source = [] then [] else computeNetworkStatus s.source := by
  unfold refresh_network_status
  split <;> simp_all

theorem rns_fst_os (s : DBState) :
    (refresh_network_status s).1.organization_summary = s.organization_summary := by
  unfold refresh_network_status
  split <;> rfl

theorem ros_fst_source (s : DBState) : (refresh_organization_summary s).1.source = s.source := by
  unfold refresh_organization_summary
  split <;> rfl

theorem ros_fst_ns (s : DBState) :
    (refresh_organization_summary s).1.network_status = s.network_status := by
  unfold refresh_organization_summary
  split <;> rfl

theorem ros_fst_os (s : DBState) :
    (refresh_organization_summary s).1.organization_summary =
      if s.source.organizations = [] then [] else computeOrgSummary s.source := by
  unfold refresh_organization_summary
  split <;> simp_all

theorem refreshAll_fst_source (s : DBState) : (refreshAll s).1.source = s.source := by
  show (refresh_organization_summary (refresh_network_status s).1).1.source = s.source
  rw [ros_fst_source, rns_fst_source]

theorem refreshAll_fst_ns (s : DBState) :
    (refreshAll s).1.network_status =
      if fetchCurrentRoles s.source = [] then [] else computeNetworkStatus s.source := by
  show (refresh_organization_summary (refresh_network_status s).1).1.network_status = _
  rw [ros_fst_ns, rns_fst_ns]

theorem refreshAll_fst_os (s : DBState) :
    (refreshAll s).1.organization_summary =
      if s.source.organizations = [] then [] else computeOrgSummary s.source := by
  show (refresh_organization_summary (refresh_network_status s).1).1.organization_summary = _
  rw [ros_fst_os, rns_fst_source]

theorem getCount_bump (c : List (Nat × Nat)) (k j : Nat) :
    getCount (bump c k) j = getCount c j + (if k = j then 1 else 0) := by
  induction c with
  | nil => by_cases h : k = j <;> simp [bump, getCount, h]
  | cons hd tl ih =>
    obtain ⟨k0, n⟩ := hd
    by_cases h0 : k0 = k
    · subst h0
      by_cases hj : k0 = j <;> simp [bump, getCount, hj]
    · by_cases hj : k0 = j
      · subst hj
        have : ¬ k = k0 := fun hh => h0 hh.symm
        simp [bump, getCount, h0, this]
      · simp [bump, getCount, h0, hj, ih]

theorem tallyStep_tot (cs : OrgCounters) (r : Role) :
    (tallyStep cs r).tot = bump cs.tot r.org_id := by
  cases hc : r.is_current <;> cases he : r.is_executive <;> simp [tallyStep, hc, he]

theorem tallyStep_cur (cs : OrgCounters) (r : Role) :
    (tallyStep cs r).cur = if r.is_current then bump cs.cur r.org_id else cs.cur := by
  cases hc : r.is_current <;> cases he : r.is_executive <;> simp [tallyStep, hc, he]

theorem tallyStep_exe (cs : OrgCounters) (r : Role) :
    (tallyStep cs r).exe =
      if r.is_current && r.is_executive then bump cs.exe r.org_id else cs.exe := by
  cases hc : r.is_current <;> cases he : r.is_executive <;> simp [tallyStep, hc, he]

theorem tallyGo_tot (roles : List Role) :
    ∀ (cs : OrgCounters) (k : Nat),
    getCount (tallyGo cs roles).tot k =
      getCount cs.tot k + roles.countP (fun r => r.org_id == k) := by
  induction roles with
  | nil => intro cs k; simp [tallyGo]
  | cons r rest ih =>
    intro cs k
    rw [show tallyGo cs (r :: rest) = tallyGo (tallyStep cs r) rest from rfl, ih,
      tallyStep_tot, getCount_bump, List.countP_cons]
    by_cases h : r.org_id = k <;> simp [h] <;> omega

theorem tallyGo_cur (roles : List Role) :
    ∀ (cs : OrgCounters) (k : Nat),
    getCount (tallyGo cs roles).cur k =
      getCount cs.cur k + roles.countP (fun r => r.org_id == k && r.is_current) := by
  induction roles with
  | nil => intro cs k; simp [tallyGo]
  | cons r rest ih =>
    intro cs k
    rw [show tallyGo cs (r :: rest) = tallyGo (tallyStep cs r) rest from rfl, ih,
      tallyStep_cur, List.countP_cons]
    cases hc : r.is_current
    · simp [hc]
    · rw [if_pos rfl, getCount_bump]
      by_cases h : r.org_id = k <;> simp [h, hc] <;> omega

theorem tallyGo_exe (roles : List Role) :
    ∀ (cs : OrgCounters) (k : Nat),
    getCount (tallyGo cs roles).exe k =
      getCount cs.exe k + roles.countP (fun r => r.org_id == k && (r.is_current && r.is_executive)) := by
  induction roles with
  | nil => intro cs k; simp [tallyGo]
  | cons r rest ih =>
    intro cs k
    rw [show tallyGo cs (r :: rest) = tallyGo (tallyStep cs r) rest from rfl, ih,
      tallyStep_exe, List.countP_cons]
    cases hce : r.is_current && r.is_executive
    · simp [hce]
    · rw [if_pos rfl, getCount_bump]
      by_cases h : r.org_id = k <;> simp [h, hce] <;> omega

theorem tallyRoles_tot (roles : List Role) (k : Nat) :
    getCount (tallyRoles roles).tot k = roles.countP (fun r => r.org_id == k) := by
  rw [tallyRoles, tallyGo_tot]
  simp [getCount]

theorem tallyRoles_cur (roles : List Role) (k : Nat) :
    getCount (tallyRoles roles).cur k = roles.countP (fun r => r.org_id == k && r.is_current) := by
  rw [tallyRoles, tallyGo_cur]
  simp [getCount]

theorem tallyRoles_exe (roles : List Role) (k : Nat) :
    getCount (tallyRoles roles).exe k =
      roles.countP (fun r => r.org_id == k && (r.is_current && r.is_executive)) := by
  rw [tallyRoles, tallyGo_exe]
  simp [getCount]

theorem orgDictStep_preserves (acc : List Organization) (o : Organization) (i : Nat)
    (h : ∃ x ∈ acc, x.id = i) : ∃ x ∈ orgDictStep acc o, x.id = i := by
  obtain ⟨x, hx, hxi⟩ := h
  unfold orgDictStep
  split
  · by_cases hxo : x.id = o.id
    · exact ⟨o, List.mem_map.mpr ⟨x, hx, by simp [hxo]⟩, by rw [← hxo, hxi]⟩
    · exact ⟨x, List.mem_map.mpr ⟨x, hx, by simp [hxo]⟩, hxi⟩
  · exact ⟨x, List.mem_append.mpr (Or.inl hx), hxi⟩

theorem orgDictStep_adds (acc : List Organization) (o : Organization) :
    ∃ x ∈ orgDictStep acc o, x.id = o.id := by
  unfold orgDictStep
  split
  · rename_i hany
    obtain ⟨x, hx, hxo⟩ := List.any_eq_true.mp hany
    refine ⟨o, List.mem_map.mpr ⟨x, hx, by simp_all⟩, rfl⟩
  · exact ⟨o, List.mem_append.mpr (Or.inr (by simp)), rfl⟩

theorem orgDictGo_mem (l : List Organization) :
    ∀ (acc : List Organization) (i : Nat),
    ((∃ x ∈ acc, x.id = i) ∨ (∃ o ∈ l, o.id = i)) →
    ∃ x ∈ orgDictGo acc l, x.id = i := by
  induction l with
  | nil =>
    intro acc i h
    rcases h with h | h
    · exact h
    · obtain ⟨o, ho, _⟩ := h
      cases ho
  | cons o rest ih =>
    intro acc i h
    rw [show orgDictGo acc (o :: rest) = orgDictGo (orgDictStep acc o) rest from rfl]
    rcases h with h | h
    · exact ih _ i (Or.inl (orgDictStep_preserves acc o i h))
    · obtain ⟨o', ho', hoi⟩ := h
      rcases List.mem_cons.mp ho' with rfl | htail
      · exact ih _ i (Or.inl (hoi ▸ orgDictStep_adds acc o'))
      · exact ih _ i (Or.inr ⟨o', htail, hoi⟩)

theorem orgDict_mem (orgs : List Organization) (o : Organization) (h : o ∈ orgs) :
    ∃ x ∈ orgDict orgs, x.id = o.id :=
  orgDictGo_mem orgs [] o.id (Or.inr ⟨o, h, rfl⟩)

theorem lookupG_insertGrouped (pid : Nat) (r : FetchedRole) :
    ∀ (acc : List (Nat × List FetchedRole)) (k : Nat),
    lookupG (insertGrouped acc pid r) k =
      if k = pid then some ((lookupG acc pid).getD [] ++ [r]) else lookupG acc k := by
  intro acc
  induction acc with
  | nil =>
    intro k
    by_cases h : k = pid
    · subst h
      simp [insertGrouped, lookupG]
    · have h2 : ¬ pid = k := fun hh => h hh.symm
      simp [insertGrouped, lookupG, h, h2]
  | cons hd tl ih =>
    obtain ⟨k0, rs0⟩ := hd
    intro k
    by_cases h0 : k0 = pid
    · subst h0
      by_cases hk : k = k0
      · subst hk
        simp [insertGrouped, lookupG]
      · have hk2 : ¬ k0 = k := fun hh => hk hh.symm
        simp [insertGrouped, lookupG, hk, hk2]
    · by_cases hk : k = k0
      · subst hk
        simp [insertGrouped, lookupG, h0]
      · have hk2 : ¬ k0 = k := fun hh => hk hh.symm
        simp [insertGrouped, lookupG, h0, hk2, ih]

theorem combineG_snoc (o : Option (List FetchedRole)) (fr : FetchedRole)
    (g : List FetchedRole) :
    combineG (some ((o.getD []) ++ [fr])) g = combineG o (fr :: g) := by
  cases o <;> simp [combineG]

theorem groupGo_lookup (k : Nat) :
    ∀ (l : List FetchedRole) (acc : List (Nat × List FetchedRole)),
    lookupG (groupGo acc l) k = combineG (lookupG acc k) (groupFilter l k) := by
  intro l
  induction l with
  | nil =>
    intro acc
    cases h : lookupG acc k <;> simp [groupGo, groupFilter, combineG, h]
  | cons fr rest ih =>
    intro acc
    cases hp : fr.person with
    | none =>
      have hkey : (keyOfF fr == some k) = false := by
        simp [keyOfF, hp]
      have hgf : groupFilter (fr :: rest) k = groupFilter rest k := by
        simp [groupFilter, List.filter_cons, hkey]
      rw [show groupGo acc (fr :: rest) = groupGo acc rest from by rw [groupGo, hp]]
      rw [ih, hgf]
    | some p =>
      rw [show groupGo acc (fr :: rest) = groupGo (insertGrouped acc p.id fr) rest from by
        rw [groupGo, hp]]
      rw [ih]
      by_cases hpk : k = p.id
      · have hkey : (keyOfF fr == some k) = true := by
          simp [keyOfF, hp, hpk]
        have hgf : groupFilter (fr :: rest) k = fr :: groupFilter rest k := by
          simp [groupFilter, List.filter_cons, hkey]
        rw [lookupG_insertGrouped, if_pos hpk, hgf, ← hpk]
        exact combineG_snoc (lookupG acc k) fr (groupFilter rest k)
      · have hne : p.id ≠ k := fun hh => hpk hh.symm
        have hkey : (keyOfF fr == some k) = false := by
          simp [keyOfF, hp, hne]
        have hgf : groupFilter (fr :: rest) k = groupFilter rest k := by
          simp [groupFilter, List.filter_cons, hkey]
        rw [lookupG_insertGrouped, if_neg hpk, hgf]

theorem groupByPerson_lookup (l : List FetchedRole) (k : Nat) :
    lookupG (groupByPerson l) k =
      if groupFilter l k = [] then none else some (groupFilter l k) := by
  rw [groupByPerson, groupGo_lookup]
  rfl

theorem keys_insertGrouped (pid : Nat) (r : FetchedRole) :
    ∀ (acc : List (Nat × List FetchedRole)),
    (insertGrouped acc pid r).map Prod.fst =
      if pid ∈ acc.map Prod.fst then acc.map Prod.fst else acc.map Prod.fst ++ [pid] := by
  intro acc
  induction acc with
  | nil => simp [insertGrouped]
  | cons hd tl ih =>
    obtain ⟨k0, rs0⟩ := hd
    by_cases h0 : k0 = pid
    · subst h0
      simp [insertGrouped]
    · have h02 : ¬ pid = k0 := fun hh => h0 hh.symm
      by_cases hmem : pid ∈ tl.map Prod.fst
      · simp [insertGrouped, h0, ih, hmem, h02]
      · simp [insertGrouped, h0, ih, hmem, h02]

theorem nodup_insertGrouped (acc : List (Nat × List FetchedRole)) (pid : Nat)
    (r : FetchedRole) (h : (acc.map Prod.fst).Nodup) :
    ((insertGrouped acc pid r).map Prod.fst).Nodup := by
  rw [keys_insertGrouped]
  split
  · exact h
  · rename_i hnot
    rw [List.nodup_append]
    refine ⟨h, List.nodup_singleton pid, ?_⟩
    intro a ha hb
    rw [List.mem_singleton] at hb
    subst hb
    exact hnot ha

theorem nodup_groupGo :
    ∀ (l : List FetchedRole) (acc : List (Nat × List FetchedRole)),
    (acc.map Prod.fst).Nodup → ((groupGo acc l).map Prod.fst).Nodup := by
  intro l
  induction l with
  | nil => intro acc h; exact h
  | cons fr rest ih =>
    intro acc h
    cases hp : fr.person with
    | none =>
      rw [show groupGo acc (fr :: rest) = groupGo acc rest from by rw [groupGo, hp]]
      exact ih acc h
    | some p =>
      rw [show groupGo acc (fr :: rest) = groupGo (insertGrouped acc p.id fr) rest from by
        rw [groupGo, hp]]
      exact ih _ (nodup_insertGrouped acc p.id fr h)

theorem lookupG_of_mem (k : Nat) (rs : List FetchedRole) :
    ∀ (acc : List (Nat × List FetchedRole)),
    (acc.map Prod.fst).Nodup → (k, rs) ∈ acc → lookupG acc k = some rs := by
  intro acc
  induction acc with
  | nil => intro _ hmem; cases hmem
  | cons hd tl ih =>
    obtain ⟨k0, rs0⟩ := hd
    intro hnd hmem
    rcases List.mem_cons.mp hmem with heq | htail
    · rw [Prod.mk.injEq] at heq
      obtain ⟨h1, h2⟩ := heq
      subst h1
      subst h2
      simp [lookupG]
    · have hk : k ∈ tl.map Prod.fst := List.mem_map_of_mem Prod.fst htail
      have hk0 : k0 ∉ tl.map Prod.fst := by
        rw [List.map_cons, List.nodup_cons] at hnd
        exact hnd.1
      have hne : ¬ k0 = k := fun hh => hk0 (hh ▸ hk)
      rw [lookupG, if_neg hne]
      refine ih ?_ htail
      rw [List.map_cons, List.nodup_cons] at hnd
      exact hnd.2

theorem group_mem_eq (l : List FetchedRole) (k : Nat) (rs : List FetchedRole)
    (h : (k, rs) ∈ groupByPerson l) : rs = groupFilter l k := by
  have hnd : ((groupByPerson l).map Prod.fst).Nodup := nodup_groupGo l [] (by simp)
  have hl := lookupG_of_mem k rs (groupByPerson l) hnd h
  rw [groupByPerson_lookup] at hl
  by_cases hg : groupFilter l k = []
  · rw [if_pos hg] at hl
    cases hl
  · rw [if_neg hg] at hl
    exact (Option.some.inj hl).symm

theorem findPerson_id (ps : List Person) (pid : Nat) (p : Person)
    (h : findPerson ps pid = some p) : p.id = pid := by
  have := List.find?_some h
  simpa using this

theorem keyOfF_mkFetched (db : SourceStore) (k : Nat) (person : Person)
    (hk : findPerson db.persons k = some person) (r : Role) :
    (keyOfF (mkFetched db r) == some k) = (r.person_id == k) := by
  by_cases h : r.person_id = k
  · have hpid : person.id = k := findPerson_id _ _ _ hk
    simp [keyOfF, mkFetched, h, hk, hpid]
  · cases hf : findPerson db.persons r.person_id with
    | none => simp [keyOfF, mkFetched, hf, h]
    | some q =>
      have hq : q.id = r.person_id := findPerson_id _ _ _ hf
      have hqk : ¬ q.id = k := by rw [hq]; exact h
      simp [keyOfF, mkFetched, hf, hqk, h]

theorem groupFilter_length (db : SourceStore) (k : Nat) (person : Person)
    (hk : findPerson db.persons k = some person) :
    (groupFilter (fetchCurrentRoles db) k).length =
      db.roles.countP (fun r => r.person_id == k && r.is_current) := by
  rw [groupFilter, fetchCurrentRoles, ← List.countP_eq_length_filter, List.countP_map,
    List.countP_filter]
  apply List.countP_congr
  intro r _
  have := keyOfF_mkFetched db k person hk r
  constructor
  · intro hx
    simp only [Function.comp] at hx
    rw [this] at hx
    exact hx
  · intro hx
    simp only [Function.comp]
    rw [this]
    exact hx

theorem totalRolesCount_eq (db : SourceStore) (k : Nat) :
    totalRolesCount db k = db.roles.countP (fun r => r.person_id == k) := by
  rw [totalRolesCount, List.count_eq_countP, List.countP_map]
  rfl

theorem computeNetworkStatus_counts (db : SourceStore) (rec : NetworkStatusRecord)
    (h : rec ∈ computeNetworkStatus db) :
    rec.current_roles_count =
      db.roles.countP (fun r => r.person_id == rec.person_id && r.is_current) ∧
    rec.total_roles_count = db.roles.countP (fun r => r.person_id == rec.person_id) := by
  rw [computeNetworkStatus] at h
  obtain ⟨kv, hkv, hbuild⟩ := List.mem_filterMap.mp h
  obtain ⟨k, rs⟩ := kv
  have hrs : rs = groupFilter (fetchCurrentRoles db) k := group_mem_eq _ _ _ hkv
  cases rs with
  | nil => simp [buildRecord] at hbuild
  | cons primary tail =>
    cases hp : primary.person with
    | none => simp [buildRecord, hp] at hbuild
    | some person =>
      cases ho : primary.organization with
      | none => simp [buildRecord, hp, ho] at hbuild
      | some org =>
        simp only [buildRecord, hp, ho, Option.some.injEq] at hbuild
        subst hbuild
        have hpm : primary ∈ groupFilter (fetchCurrentRoles db) k := by
          rw [← hrs]
          exact List.mem_cons_self _ _
        have hpred := (List.mem_filter.mp hpm).2
        have hpidk : person.id = k := by
          simpa [keyOfF, hp] using hpred
        have hpl : primary ∈ fetchCurrentRoles db := (List.mem_filter.mp hpm).1
        rw [fetchCurrentRoles] at hpl
        obtain ⟨r0, hr0, hr0eq⟩ := List.mem_map.mp hpl
        have hr0p : findPerson db.persons r0.person_id = some person := by
          rw [← hr0eq] at hp
          simpa [mkFetched] using hp
        have hr0k : r0.person_id = k := by
          have hpr := findPerson_id _ _ _ hr0p
          rw [← hpr]
          exact hpidk
        have hfk : findPerson db.persons k = some person := by
          rw [← hr0k]
          exact hr0p
        refine ⟨?_, ?_⟩
        · show (primary :: tail).length =
            List.countP (fun r => r.person_id == person.id && r.is_current) db.roles
          rw [hpidk]
          have hlen := groupFilter_length db k person hfk
          rw [← hrs] at hlen
          exact hlen
        · show totalRolesCount db k =
            List.countP (fun r => r.person_id == person.id) db.roles
          rw [hpidk, totalRolesCount_eq]

theorem computeOrgSummary_mem (db : SourceStore) (x : Organization)
    (hx : x ∈ orgDict db.organizations) :
    ∃ rec ∈ computeOrgSummary db,
      rec.org_id = x.id ∧
      rec.total_employees = db.roles.countP (fun r => r.org_id == x.id) ∧
      rec.current_employees = db.roles.countP (fun r => r.org_id == x.id && r.is_current) ∧
      rec.executive_count =
        db.roles.countP (fun r => r.org_id == x.id && (r.is_current && r.is_executive)) := by
  simp only [computeOrgSummary]
  refine ⟨_, List.mem_map_of_mem _ hx, rfl, ?_, ?_, ?_⟩
  · exact tallyRoles_tot db.roles x.id
  · exact tallyRoles_cur db.roles x.id
  · exact tallyRoles_exe db.roles x.id

/-- Claim C1: the claim reads total_employees as the number of distinct people
who ever held a role at the organization. On the snapshot db1 one person holds
two historical role rows at orgOne: refresh_organization_summary writes
total_employees = 2 (it counts role rows), while the distinct-person count —
which the SQL variant sql_total_employees implements — is 1. -/
theorem c1_total_employees_counts_role_rows :
    (computeOrgSummary db1).map (fun rec => (rec.org_id, rec.total_employees)) = [(1, 2)] ∧
    sql_total_employees db1.roles 1 = 1 := by decide

/-- Claim C2: the refresh is an idempotent pure projection of the source
snapshot — running refreshAll twice yields the same network_status and
organization_summary contents as running it once. -/
theorem c2_refresh_idempotent :
    ∀ s : DBState,
    (refreshAll (refreshAll s).1).1.network_status = (refreshAll s).1.network_status ∧
    (refreshAll (refreshAll s).1).1.organization_summary =
      (refreshAll s).1.organization_summary := by
  intro s
  constructor
  · rw [refreshAll_fst_ns, refreshAll_fst_ns, refreshAll_fst_source]
  · rw [refreshAll_fst_os, refreshAll_fst_os, refreshAll_fst_source]

/-- Claim C3: on db3 the person has one current role whose organization record
is missing (fetched first) and one current role with an intact organization,
yet computeNetworkStatus drops the person entirely: the primary-role check
discards the whole person when the first grouped role has no organization. -/
theorem c3_person_record_lost :
    (mkFetched db3 roleMissingOrg).organization = none ∧
    (mkFetched db3 roleIntactOrg).organization = some orgTwo ∧
    roleMissingOrg.is_current = true ∧ roleIntactOrg.is_current = true ∧
    computeNetworkStatus db3 = [] := by decide

/-- Claim C4 counterexample: with three singleton batches where the second
insert fails, the third batch is never attempted and the writer reports
failure — refuting the claim that every batch after a failed one is still
attempted and the refresh does not abort. -/
theorem c4_batch_after_failure_not_attempted :
    ([3] ∉ (insertLoop failsOn2 (chunksOf 1 [1, 2, 3])).1) ∧
    (insertLoop failsOn2 (chunksOf 1 [1, 2, 3])).2 = false := by decide

/-- Claim C4 (amended): when an individual batch insert fails, the exception
propagates to the function-level handler — the batches before the failing one
plus the failing attempt are the only ones attempted, and the refresh of that
table reports failure. -/
theorem c4_failed_batch_aborts_loop {α : Type} (fails : List α → Bool)
    (pre post : List (List α)) (b : List α)
    (h1 : ∀ x ∈ pre, fails x = false) (h2 : fails b = true) :
    insertLoop fails (pre ++ b :: post) = (pre ++ [b], false) := by
  induction pre with
  | nil => simp [insertLoop, h2]
  | cons p rest ih =>
    have hp : fails p = false := h1 p (List.mem_cons_self _ _)
    have hrest : ∀ x ∈ rest, fails x = false := fun x hx => h1 x (List.mem_cons_of_mem _ hx)
    simp [insertLoop, hp, ih hrest]

/-- Claim C4 witness: the amended behavior at a concrete batch sequence. -/
theorem c4_failed_batch_aborts_loop_witness :
    insertLoop failsOn2 (chunksOf 1 [1, 2, 3]) = ([[1], [2]], false) :=
  c4_failed_batch_aborts_loop failsOn2 [[1]] [[3]] [2] (by decide) (by decide)

/-- Claim C5: for every person record produced by refresh_network_status,
current_roles_count equals the number of role rows of that person with
is_current = true, and total_roles_count equals the number of role rows ever
created for that person. -/
theorem c5_role_counts (s : DBState) (rec : NetworkStatusRecord)
    (h : rec ∈ (refresh_network_status s).1.network_status) :
    rec.current_roles_count =
      s.source.roles.countP (fun r => r.person_id == rec.person_id && r.is_current) ∧
    rec.total_roles_count =
      s.source.roles.countP (fun r => r.person_id == rec.person_id) := by
  rw [rns_fst_ns] at h
  split at h
  · cases h
  · exact computeNetworkStatus_counts s.source rec h

/-- Claim C5 witness: the counts at a concrete state with one current and one
historical role. -/
theorem c5_role_counts_witness :
    recW ∈ (refresh_network_status sW).1.network_status ∧
    (recW.current_roles_count =
      sW.source.roles.countP (fun r => r.person_id == recW.person_id && r.is_current) ∧
     recW.total_roles_count =
      sW.source.roles.countP (fun r => r.person_id == recW.person_id)) :=
  ⟨by decide, c5_role_counts sW recW (by decide)⟩

/-- Claim C6: every record produced by refresh_organization_summary satisfies
current_employees less than or equal to total_employees. -/
theorem c6_current_le_total (s : DBState) (rec : OrganizationSummaryRecord)
    (h : rec ∈ (refresh_organization_summary s).1.organization_summary) :
    rec.current_employees ≤ rec.total_employees := by
  rw [ros_fst_os] at h
  split at h
  · cases h
  · simp only [computeOrgSummary] at h
    obtain ⟨o, ho, heq⟩ := List.mem_map.mp h
    subst heq
    show getCount (tallyRoles s.source.roles).cur o.id ≤
      getCount (tallyRoles s.source.roles).tot o.id
    rw [tallyRoles_cur, tallyRoles_tot]
    apply List.countP_mono_left
    intro r _ hx
    rw [Bool.and_eq_true] at hx
    exact hx.1

/-- Claim C6 witness: the inequality at a concrete state. -/
theorem c6_current_le_total_witness :
    rec6 ∈ (refresh_organization_summary s6).1.organization_summary ∧
    rec6.current_employees ≤ rec6.total_employees :=
  ⟨by decide, c6_current_le_total s6 rec6 (by decide)⟩

/-- Claim C7: the classifiers are deterministic with first-matching-category
semantics over the ordered keyword table; on the title Corporate Partnerships
Sales Manager both implementations return Sales and Partnerships, never
Marketing and Communications. -/
theorem c7_classifier_first_match :
    classify_job_title (some "Corporate Partnerships Sales Manager") = "Sales & Partnerships" ∧
    classify_job_title (some "Corporate Partnerships Sales Manager") ≠ "Marketing & Communications" ∧
    categorize_role (some "Corporate Partnerships Sales Manager") none create_department_mapping =
      "Sales & Partnerships" := by decide

/-- Claim C8: every organization in the source with zero role rows still gets
a summary record with all three counts zero. -/
theorem c8_zero_role_org_has_record (s : DBState) (o : Organization)
    (h1 : o ∈ s.source.organizations)
    (h2 : ∀ r ∈ s.source.roles, r.org_id ≠ o.id) :
    ∃ rec ∈ (refresh_organization_summary s).1.organization_summary,
      rec.org_id = o.id ∧ rec.total_employees = 0 ∧ rec.current_employees = 0 ∧
      rec.executive_count = 0 := by
  have horg : s.source.organizations ≠ [] := List.ne_nil_of_mem h1
  obtain ⟨x, hx, hxid⟩ := orgDict_mem s.source.organizations o h1
  obtain ⟨rec, hrecmem, hrid, htot, hcur, hexe⟩ := computeOrgSummary_mem s.source x hx
  have hcount : s.source.roles.countP (fun r => r.org_id == x.id) = 0 := by
    rw [List.countP_eq_zero]
    intro r hr hcontra
    apply h2 r hr
    have hrx : r.org_id = x.id := by simpa using hcontra
    rw [hrx, hxid]
  have hle1 : s.source.roles.countP (fun r => r.org_id == x.id && r.is_current) ≤
      s.source.roles.countP (fun r => r.org_id == x.id) := by
    apply List.countP_mono_left
    intro r _ hx2
    rw [Bool.and_eq_true] at hx2
    exact hx2.1
  have hle2 : s.source.roles.countP
        (fun r => r.org_id == x.id && (r.is_current && r.is_executive)) ≤
      s.source.roles.countP (fun r => r.org_id == x.id) := by
    apply List.countP_mono_left
    intro r _ hx2
    rw [Bool.and_eq_true] at hx2
    exact hx2.1
  refine ⟨rec, ?_, ?_, ?_, ?_, ?_⟩
  · rw [ros_fst_os, if_neg horg]
    exact hrecmem
  · rw [hrid, hxid]
  · rw [htot, hcount]
  · rw [hcur]
    omega
  · rw [hexe]
    omega

/-- Claim C8 witness: the record at a concrete state with a role-less org. -/
theorem c8_zero_role_org_has_record_witness :
    org5 ∈ s8.source.organizations ∧
    (∃ rec ∈ (refresh_organization_summary s8).1.organization_summary,
      rec.org_id = org5.id ∧ rec.total_employees = 0 ∧ rec.current_employees = 0 ∧
      rec.executive_count = 0) :=
  ⟨by decide, c8_zero_role_org_has_record s8 org5 (by decide) (by decide)⟩

/-- Claim C9: the classifier is total — every title yields exactly one category
from the fixed set, and a null or empty title yields Other. -/
theorem c9_classifier_total :
    (∀ jt : Option String, classify_job_title jt ∈ allCategories) ∧
    classify_job_title none = "Other" ∧ classify_job_title (some "") = "Other" := by
  refine ⟨?_, rfl, by decide⟩
  intro jt
  cases jt with
  | none => decide
  | some t =>
    simp only [classify_job_title]
    by_cases ht : t = ""
    · rw [if_pos ht]
      decide
    · rw [if_neg ht]
      cases hf : DEPARTMENT_MAPPING.find? (fun dk => dk.2.any (fun kw => pyIn kw (pyLower t))) with
      | some dk =>
        simp only [hf]
        exact List.mem_append.mpr (Or.inl (List.mem_map_of_mem Prod.fst
          (List.mem_of_find?_eq_some hf)))
      | none =>
        simp only [hf]
        split <;> decide

/-- Claim C10: when the source has no current role rows, refresh_network_status
leaves the serving table empty (the unconditional delete has already run) and
still reports success. -/
theorem c10_empty_current_roles (s : DBState)
    (h : s.source.roles.filter (fun r => r.is_current) = []) :
    (refresh_network_status s).1.network_status = [] ∧
    (refresh_network_status s).2 = true := by
  have hf : fetchCurrentRoles s.source = [] := by
    rw [fetchCurrentRoles, h]
    rfl
  constructor
  · rw [rns_fst_ns, if_pos hf]
  · unfold refresh_network_status
    rw [if_pos hf]

/-- Claim C10 witness: a state with a non-empty prior serving table and only a
historical role. -/
theorem c10_empty_current_roles_witness :
    s10.source.roles.filter (fun r => r.is_current) = [] ∧
    ((refresh_network_status s10).1.network_status = [] ∧
     (refresh_network_status s10).2 = true) :=
  ⟨by decide, c10_empty_current_roles s10 (by decide)⟩
